import Mathlib

/-!
Shallow embedding of the crime-pattern scoring core of the repository:
`backend/crime_analyzer.py` (CrimePatternAnalyzer), `backend/models.py`
(detection filtering and non-max suppression), and `backend/motion_analyzer.py`
(MotionAnalyzer).

Conventions of the embedding:
* Python floats are modelled as rationals (`ℚ`); every numeric literal of the
  source appears verbatim (Lean's decimal rational literals are exact).
* Python dicts that carry fixed keys become structures; the `type` key of a
  crime indicator is the field `itype` (`type` clashes with Lean's keyword
  namespace).  Presentation-only fields (free-text assessment and
  recommendation strings, the `description`/`timestamp` strings) are omitted:
  nothing downstream reads them.
* `_calculate_bbox_distance` returns a Euclidean distance `sqrt d`; every use
  in the source either takes a minimum of such distances or compares one with
  a nonnegative constant `c`.  Since `sqrt` is strictly monotone,
  `sqrt d < c ↔ d < c^2` and minima commute with `sqrt`, so the embedding
  carries the squared distance and squares the three thresholds
  (200 → 200^2, 300 → 300^2, 500 → 500^2).
* Division in `ℚ` is total with `x / 0 = 0`; the source divides by list
  lengths guarded to be positive, and in the IoU by a box-area sum that is
  positive for the non-degenerate boxes the detector produces.
-/

namespace CrimeAI

/-- An axis-aligned bounding box in `[x1, y1, x2, y2]` (xyxy) order, as the
detector emits it (`models.py`, `run_detection_model`). -/
structure BBox where
  x1 : ℚ
  y1 : ℚ
  x2 : ℚ
  y2 : ℚ
deriving DecidableEq

/-- One object detection: the `{"label", "conf", "bbox"}` dict of
`run_detection_model` (the derived `bbox_area`/`class_id` keys are unused by
the analyzers). -/
structure Obj where
  label : String
  conf : ℚ
  bbox : BBox
deriving DecidableEq

/-- One per-frame detection record: the `{"frame", "frame_index", "objects"}`
dict consumed by `CrimePatternAnalyzer`. -/
structure Frame where
  frame : String
  frame_index : ℕ
  objects : List Obj
deriving DecidableEq

/-- One `{"label", "prob"}` entry of a clip's `top_actions` list. -/
structure TopAction where
  label : String
  prob : ℚ
deriving DecidableEq

/-- One action-recognition clip record with the keys `CrimePatternAnalyzer`
reads: `clip_index`, `clip_type`, `top_actions`. -/
structure Clip where
  clip_index : ℕ
  clip_type : String
  top_actions : List TopAction
deriving DecidableEq

/-- Python's `str.lower()` on a label (ASCII case folding). -/
def lowerStr (s : String) : String :=
  s.map Char.toLower

/-- Python's substring test `kw in hay`. -/
def strContains (hay kw : String) : Bool :=
  decide (kw.data <:+: hay.data)

/-- Python's `any(kw in label for kw in kws)`. -/
def anyKeyword (kws : List String) (label : String) : Bool :=
  kws.any (fun kw => strContains label kw)

/-! ### Keyword and label tables (`CrimePatternAnalyzer.__init__` and helpers) -/

/-- `self.severity_weights` of `CrimePatternAnalyzer.__init__`. -/
def severityWeightsList : List (String × ℚ) :=
  [("weapon_threat", 1.0), ("violent_assault", 0.95), ("armed_robbery", 0.90),
   ("physical_fight", 0.85), ("theft_in_progress", 0.80), ("vandalism", 0.70),
   ("suspicious_activity", 0.60), ("trespassing", 0.50)]

/-- `self.severity_weights.get(t, 0.5)`: dictionary lookup with default 0.5. -/
def severityWeightOf (t : String) : ℚ :=
  (severityWeightsList.lookup t).getD 0.5

/-- `self.violence_keywords`. -/
def violenceKeywords : List String :=
  ["punch", "hit", "kick", "beat", "attack", "assault", "fight",
   "slap", "strangle", "choke", "tackle", "headbutt", "combat"]

/-- `self.weapon_keywords`. -/
def weaponKeywords : List String :=
  ["shoot", "stab", "aim", "point", "wield", "brandish",
   "threaten", "fire", "swing", "strike with"]

/-- `self.theft_keywords`. -/
def theftKeywords : List String :=
  ["steal", "snatch", "grab", "rob", "shoplift", "pickpocket",
   "burglar", "loot", "pilfer", "take", "swipe"]

/-- `weapon_labels` of `_is_weapon` (matched by substring against the lowered
label). -/
def weaponLabels : List String :=
  ["knife", "gun", "pistol", "rifle", "weapon", "firearm",
   "baseball bat", "bat", "hammer", "axe", "crowbar", "stick",
   "scissors", "sword", "machete", "blade", "razor",
   "bottle", "chain", "pipe", "wrench", "club", "baton"]

/-- `_is_weapon`: some weapon word occurs as a substring of the lowered label. -/
def isWeapon (label : String) : Bool :=
  weaponLabels.any (fun w => strContains (lowerStr label) w)

/-! ### Weapon threat analysis (`analyze_weapon_threat`) -/

/-- The weapons of a frame: objects whose label `_is_weapon` accepts. -/
def weaponsOf (f : Frame) : List Obj :=
  f.objects.filter (fun o => isWeapon o.label)

/-- The persons of a frame: objects whose lowered label equals `"person"`. -/
def personsOf (f : Frame) : List Obj :=
  f.objects.filter (fun o => lowerStr o.label == "person")

/-- Squared distance between the two bbox centers
(`_calculate_bbox_distance` squared; see the header comment). -/
def bboxDistSq (b1 b2 : BBox) : ℚ :=
  ((b1.x1 + b1.x2) / 2 - (b2.x1 + b2.x2) / 2) ^ 2 +
    ((b1.y1 + b1.y2) / 2 - (b2.y1 + b2.y2) / 2) ^ 2

/-- One entry of the `weapon_frames` list built by `analyze_weapon_threat`. -/
structure WeaponFrameEntry where
  frame_index : ℕ
  frame_name : String
  weapon_count : ℕ
  person_count : ℕ
  weapons : List (String × ℚ)
deriving DecidableEq

/-- One entry of the `person_weapon_proximity` list; `distSq` is the squared
minimum distance of the weapon to a person in the frame. -/
structure ProximityEntry where
  frame_index : ℕ
  distSq : ℚ
  weapon_type : String
deriving DecidableEq

/-- One entry of the `weapon_actions` list. -/
structure WeaponActionEntry where
  action : String
  confidence : ℚ
  clip_index : ℕ
  clip_type : String
deriving DecidableEq

/-- The source initialises `min_distance = inf` and folds `min` over the
persons; for a nonempty person list that is the fold of `min` over the mapped
(squared) distances starting from the first one. -/
def minDistSqToPersons (w : Obj) (persons : List Obj) : ℚ :=
  match persons.map (fun p => bboxDistSq w.bbox p.bbox) with
  | [] => 0
  | d :: ds => ds.foldl min d

/-- The `weapon_frames` entries contributed by one frame: one entry when the
frame contains a weapon, none otherwise. -/
def frameWeaponEntries (f : Frame) : List WeaponFrameEntry :=
  if (weaponsOf f).isEmpty then []
  else [⟨f.frame_index, f.frame, (weaponsOf f).length, (personsOf f).length,
        (weaponsOf f).map (fun w => (w.label, w.conf))⟩]

/-- The `person_weapon_proximity` entries contributed by one frame: one per
weapon, when the frame has both weapons and persons (`if persons and weapons`). -/
def frameProximity (f : Frame) : List ProximityEntry :=
  if (weaponsOf f).isEmpty then []
  else if (personsOf f).isEmpty then []
  else (weaponsOf f).map
    (fun w => ⟨f.frame_index, minDistSqToPersons w (personsOf f), w.label⟩)

/-- The `weapon_frames` list over all detection frames. -/
def weaponFrames (detections : List Frame) : List WeaponFrameEntry :=
  detections.flatMap frameWeaponEntries

/-- The `weapon_actions` list: top actions whose lowered label contains a
weapon keyword. -/
def weaponActions (actions : List Clip) : List WeaponActionEntry :=
  actions.flatMap (fun clip =>
    clip.top_actions.flatMap (fun act =>
      if anyKeyword weaponKeywords (lowerStr act.label) then
        [⟨act.label, act.prob, clip.clip_index, clip.clip_type⟩]
      else []))

/-- `_calculate_threat_level` (the 300/500 pixel thresholds appear squared,
matching the squared distances). -/
def calculateThreatLevel (weaponFrameCount : ℕ)
    (proximityData : List ProximityEntry)
    (wActions : List WeaponActionEntry) : String :=
  if weaponFrameCount = 0 then "none"
  else
    let closeProximity := (proximityData.filter (fun p => p.distSq < 300 ^ 2)).length
    let moderateProximity := (proximityData.filter (fun p => p.distSq < 500 ^ 2)).length
    if 0 < closeProximity ∨ 0 < wActions.length then "critical"
    else if 0 < moderateProximity ∨ 2 < weaponFrameCount then "high"
    else "medium"

/-- The dict returned by `analyze_weapon_threat` (assessment text omitted). -/
structure WeaponThreat where
  detected : Bool
  threat_level : String
  weapon_frames : List WeaponFrameEntry
  proximity_alerts : List ProximityEntry
  weapon_actions : List WeaponActionEntry
deriving DecidableEq

/-- `analyze_weapon_threat`.  The `proximity_alerts` threshold 200 appears
squared. -/
def analyzeWeaponThreat (detections : List Frame) (actions : List Clip) :
    WeaponThreat :=
  let wf := weaponFrames detections
  let prox := detections.flatMap frameProximity
  let wacts := weaponActions actions
  { detected := !wf.isEmpty
    threat_level := calculateThreatLevel wf.length prox wacts
    weapon_frames := wf
    proximity_alerts := prox.filter (fun p => p.distSq < 200 ^ 2)
    weapon_actions := wacts }

/-! ### Violence intensity analysis (`analyze_violence_intensity`) -/

/-- The extreme-violence keyword tier of `_calculate_violence_intensity`. -/
def extremeViolence : List String :=
  ["shoot", "stab", "strangle", "choke", "murder", "kill"]

/-- The high-violence keyword tier of `_calculate_violence_intensity`. -/
def highViolence : List String :=
  ["punch", "kick", "beat", "hit", "slap", "headbutt", "attack", "assault"]

/-- The medium-violence keyword tier of `_calculate_violence_intensity`. -/
def mediumViolence : List String :=
  ["fight", "wrestle", "tackle", "shove", "push", "grab"]

/-- `_calculate_violence_intensity`. -/
def calculateViolenceIntensity (actionLabel : String) (probability : ℚ) : ℚ :=
  let actionLower := lowerStr actionLabel
  if anyKeyword extremeViolence actionLower then min 1.0 (probability * 2.0)
  else if anyKeyword highViolence actionLower then min 1.0 (probability * 1.5)
  else if anyKeyword mediumViolence actionLower then min 1.0 (probability * 1.2)
  else probability * 0.8

/-- One entry of the `violent_actions` list. -/
structure ViolentActionEntry where
  action : String
  confidence : ℚ
  intensity : ℚ
  clip_index : ℕ
  clip_type : String
deriving DecidableEq

/-- The `violent_actions` list (the source lowercases the label once and feeds
the lowered label to the intensity helper). -/
def violentActions (actions : List Clip) : List ViolentActionEntry :=
  actions.flatMap (fun clip =>
    clip.top_actions.flatMap (fun act =>
      if anyKeyword violenceKeywords (lowerStr act.label) then
        [⟨act.label, act.prob,
          calculateViolenceIntensity (lowerStr act.label) act.prob,
          clip.clip_index, clip.clip_type⟩]
      else []))

/-- Frames with at least two persons (`multi_person_frames`). -/
def multiPersonFrames (detections : List Frame) : ℕ :=
  (detections.filter (fun f => 2 ≤ (personsOf f).length)).length

/-- `np.mean` of a nonempty rational list (`sum / length`). -/
def listAvg (l : List ℚ) : ℚ :=
  l.sum / l.length

/-- `_calculate_violence_score`. -/
def calculateViolenceScore (vActions : List ViolentActionEntry)
    (multiPerson : ℕ) (totalFrames : ℕ) : ℚ :=
  if vActions.isEmpty then 0.0
  else
    let avgIntensity := listAvg (vActions.map (fun a => a.intensity))
    let actionCountFactor := min 1.0 ((vActions.length : ℚ) * 0.2)
    let multiPersonFactor := (multiPerson : ℚ) / max 1 (totalFrames : ℚ)
    min 1.0 (avgIntensity * 0.5 + actionCountFactor * 0.3 + multiPersonFactor * 0.2)

/-- `_get_intensity_level`. -/
def getIntensityLevel (score : ℚ) : String :=
  if 0.6 < score then "extreme"
  else if 0.35 < score then "high"
  else if 0.15 < score then "moderate"
  else "low"

/-- The dict returned by `analyze_violence_intensity` (assessment omitted;
the presentation-only sort of `violent_actions` by descending intensity is
omitted — nothing downstream reads the order). -/
structure ViolenceAnalysis where
  detected : Bool
  violence_score : ℚ
  intensity_level : String
  violent_actions : List ViolentActionEntry
  multi_person_frame_ratio : ℚ
deriving DecidableEq

/-- `analyze_violence_intensity`. -/
def analyzeViolenceIntensity (actions : List Clip) (detections : List Frame) :
    ViolenceAnalysis :=
  let va := violentActions actions
  let mpf := multiPersonFrames detections
  let score := calculateViolenceScore va mpf detections.length
  { detected := !va.isEmpty
    violence_score := score
    intensity_level := getIntensityLevel score
    violent_actions := va
    multi_person_frame_ratio := (mpf : ℚ) / max 1 (detections.length : ℚ) }

/-! ### Theft pattern analysis (`analyze_theft_patterns`) -/

/-- The `valuable_labels` set (exact membership of the lowered label). -/
def valuableLabels : List String :=
  ["handbag", "backpack", "suitcase", "cell phone", "laptop",
   "wallet", "purse", "briefcase", "watch", "bag"]

/-- Appending a frame index to a label's entry of the valuable timeline;
a Python dict with insertion-ordered keys becomes an association list. -/
def timelineAdd (tl : List (String × List ℕ)) (label : String) (idx : ℕ) :
    List (String × List ℕ) :=
  match tl with
  | [] => [(label, [idx])]
  | (l, frs) :: rest =>
    if l == label then (l, frs ++ [idx]) :: rest
    else (l, frs) :: timelineAdd rest label idx

/-- The `valuable_timeline` dict: per valuable label, the frame indices in
which it appears, in detection order. -/
def buildTimeline (detections : List Frame) : List (String × List ℕ) :=
  detections.foldl
    (fun tl f =>
      f.objects.foldl
        (fun tl o =>
          let label := lowerStr o.label
          if valuableLabels.contains label then timelineAdd tl label f.frame_index
          else tl)
        tl)
    []

/-- One entry of the `valuable_disappearance` list. -/
structure Disappearance where
  item : String
  first_seen : ℕ
  last_seen : ℕ
  duration_ratio : ℚ
  suspicion_score : ℚ
deriving DecidableEq

/-- Minimum of a frame-index list (`min(frames)`; the `[]` case is unreachable:
timeline entries are nonempty). -/
def natListMin : List ℕ → ℕ
  | [] => 0
  | n :: ns => ns.foldl min n

/-- Maximum of a frame-index list (`max(frames)`). -/
def natListMax : List ℕ → ℕ
  | [] => 0
  | n :: ns => ns.foldl max n

/-- The disappearance test of `analyze_theft_patterns` for one timeline entry
(`last_seen - first_seen` is a true subtraction: the max dominates the min). -/
def mkDisappearance (totalFrames : ℕ) (label : String) (frames : List ℕ) :
    Option Disappearance :=
  if (frames.length : ℚ) < (totalFrames : ℚ) * 0.3 ∧ 2 ≤ frames.length then
    let firstSeen := natListMin frames
    let lastSeen := natListMax frames
    let duration := lastSeen - firstSeen
    if (duration : ℚ) < (totalFrames : ℚ) * 0.5 then
      some ⟨label, firstSeen, lastSeen, (duration : ℚ) / (totalFrames : ℚ),
            if (duration : ℚ) < (totalFrames : ℚ) * 0.2 then 0.8 else 0.6⟩
    else none
  else none

/-- The `valuable_disappearance` list. -/
def valuableDisappearances (detections : List Frame) : List Disappearance :=
  (buildTimeline detections).filterMap
    (fun p => mkDisappearance detections.length p.1 p.2)

/-- One entry of the `theft_actions` list. -/
structure TheftActionEntry where
  action : String
  confidence : ℚ
  clip_index : ℕ
deriving DecidableEq

/-- The `theft_actions` list: top actions whose lowered label contains a theft
keyword. -/
def theftActions (actions : List Clip) : List TheftActionEntry :=
  actions.flatMap (fun clip =>
    clip.top_actions.flatMap (fun act =>
      if anyKeyword theftKeywords (lowerStr act.label) then
        [⟨act.label, act.prob, clip.clip_index⟩]
      else []))

/-- `_calculate_theft_probability` (`max(1, len(..) or 1)` is `max 1 len`). -/
def calculateTheftProbability (disappearances : List Disappearance)
    (tActions : List TheftActionEntry) : ℚ :=
  if disappearances.isEmpty ∧ tActions.isEmpty then 0.0
  else
    let disappearanceScore :=
      (disappearances.map (fun d => d.suspicion_score)).sum /
        max 1 (disappearances.length : ℚ)
    let actionScore :=
      (tActions.map (fun a => a.confidence)).sum / max 1 (tActions.length : ℚ)
    if ¬disappearances.isEmpty ∧ ¬tActions.isEmpty then
      min 1.0 ((disappearanceScore + actionScore) / 2 * 1.2)
    else if ¬disappearances.isEmpty then disappearanceScore * 0.8
    else actionScore * 0.7

/-- The dict returned by `analyze_theft_patterns` (assessment omitted). -/
structure TheftAnalysis where
  detected : Bool
  theft_probability : ℚ
  valuable_disappearances : List Disappearance
  theft_actions : List TheftActionEntry
deriving DecidableEq

/-- `analyze_theft_patterns`. -/
def analyzeTheftPatterns (detections : List Frame) (actions : List Clip) :
    TheftAnalysis :=
  let vd := valuableDisappearances detections
  let ta := theftActions actions
  { detected := !vd.isEmpty || !ta.isEmpty
    theft_probability := calculateTheftProbability vd ta
    valuable_disappearances := vd
    theft_actions := ta }

/-! ### Suspicious behavior analysis (`analyze_suspicious_behavior`) -/

/-- The `suspicious_keywords` list. -/
def suspiciousKeywords : List String :=
  ["lurk", "sneak", "hide", "creep", "stalk", "prowl", "loiter"]

/-- One entry of the suspicious `patterns` list (type and confidence; the
free-text detail fields are omitted). -/
structure SuspiciousPattern where
  ptype : String
  confidence : ℚ
deriving DecidableEq

/-- The dict returned by `analyze_suspicious_behavior` (assessment omitted). -/
structure SuspiciousAnalysis where
  detected : Bool
  suspicion_score : ℚ
  patterns : List SuspiciousPattern
deriving DecidableEq

/-- `analyze_suspicious_behavior`. -/
def analyzeSuspiciousBehavior (detections : List Frame) (actions : List Clip) :
    SuspiciousAnalysis :=
  let totalFrames := detections.length
  let personPresence :=
    (detections.filter (fun f => f.objects.any (fun o => lowerStr o.label == "person"))).length
  let personRatio := (personPresence : ℚ) / max 1 (totalFrames : ℚ)
  let pat1 : List SuspiciousPattern :=
    if 0.8 < personRatio then [⟨"possible_loitering", min 0.7 (personRatio * 0.8)⟩]
    else []
  let pat2 : List SuspiciousPattern :=
    actions.flatMap (fun clip =>
      clip.top_actions.flatMap (fun act =>
        if anyKeyword suspiciousKeywords (lowerStr act.label) then
          [⟨"suspicious_action", act.prob⟩]
        else []))
  let multiPersonStatic :=
    (detections.filter (fun f => 3 ≤ (personsOf f).length)).length
  let pat3 : List SuspiciousPattern :=
    if (totalFrames : ℚ) * 0.5 < (multiPersonStatic : ℚ) then [⟨"group_loitering", 0.65⟩]
    else []
  let patterns := pat1 ++ pat2 ++ pat3
  { detected := !patterns.isEmpty
    suspicion_score := min 1.0 ((patterns.length : ℚ) * 0.25)
    patterns := patterns }

/-! ### Crime report aggregation (`generate_crime_report`) -/

/-- A `crime_indicators` entry; `itype` is the dict's `type` key. -/
structure CrimeIndicator where
  itype : String
  severity : String
  confidence : ℚ
deriving DecidableEq

/-- `ind.get("confidence", 0) * self.severity_weights.get(ind["type"], 0.5)`. -/
def weightedConfidence (ind : CrimeIndicator) : ℚ :=
  ind.confidence * severityWeightOf ind.itype

/-- Python's `max(...)` over the nonempty weighted-confidence generator
(a fold of `max` from the first value); 0 on the empty list, which the caller
never consults. -/
def maxWeightedConfidence : List CrimeIndicator → ℚ
  | [] => 0
  | i :: t => t.foldl (fun m ind => max m (weightedConfidence ind)) (weightedConfidence i)

/-- The overall-severity block of `generate_crime_report` (lines 364–378):
`"safe"` for no indicators, else the bucket of the maximal weighted
confidence. -/
def overallSeverityOf (inds : List CrimeIndicator) : String :=
  if inds.isEmpty then "safe"
  else
    let maxSeverity := maxWeightedConfidence inds
    if 0.8 < maxSeverity then "critical"
    else if 0.6 < maxSeverity then "high"
    else if 0.4 < maxSeverity then "medium"
    else "low"

/-- The `crime_indicators` list built by `generate_crime_report`, in its
append order: weapon, violence, theft, suspicion. -/
def crimeIndicatorsOf (w : WeaponThreat) (v : ViolenceAnalysis)
    (t : TheftAnalysis) (s : SuspiciousAnalysis) : List CrimeIndicator :=
  (if w.detected then [⟨"weapon_threat", w.threat_level, 0.9⟩] else []) ++
  (if v.detected ∧ 0.5 < v.violence_score then
     [⟨"violent_assault", v.intensity_level, v.violence_score⟩] else []) ++
  (if t.detected ∧ 0.4 < t.theft_probability then
     [⟨"theft_or_robbery",
       if 0.7 < t.theft_probability then "high" else "medium",
       t.theft_probability⟩] else []) ++
  (if s.detected ∧ 0.5 < s.suspicion_score then
     [⟨"suspicious_activity", "medium", s.suspicion_score⟩] else [])

/-- The dict returned by `generate_crime_report` (recommendation omitted). -/
structure CrimeReport where
  overall_severity : String
  crime_detected : Bool
  crime_indicators : List CrimeIndicator
  weapon_threat_analysis : WeaponThreat
  violence_analysis : ViolenceAnalysis
  theft_analysis : TheftAnalysis
  suspicious_behavior_analysis : SuspiciousAnalysis
deriving DecidableEq

/-- `generate_crime_report`. -/
def generateCrimeReport (detections : List Frame) (actions : List Clip) :
    CrimeReport :=
  let w := analyzeWeaponThreat detections actions
  let v := analyzeViolenceIntensity actions detections
  let t := analyzeTheftPatterns detections actions
  let s := analyzeSuspiciousBehavior detections actions
  let inds := crimeIndicatorsOf w v t s
  { overall_severity := overallSeverityOf inds
    crime_detected := !inds.isEmpty
    crime_indicators := inds
    weapon_threat_analysis := w
    violence_analysis := v
    theft_analysis := t
    suspicious_behavior_analysis := s }

/-! ### Detection filtering and NMS (`models.py`) -/

/-- `critical_labels` of `_filter_detections_by_confidence` (exact membership). -/
def criticalLabels : List String :=
  ["person", "knife", "gun", "pistol", "rifle", "weapon",
   "baseball bat", "scissors", "hammer", "axe", "sword",
   "machete", "crowbar", "bat", "stick", "club",
   "bottle", "glass bottle", "beer bottle"]

/-- `valuable_items` of `_filter_detections_by_confidence`. -/
def valuableItems : List String :=
  ["handbag", "backpack", "suitcase", "cell phone", "laptop",
   "wallet", "purse", "briefcase", "luggage", "bag",
   "watch", "clock", "bottle", "cup", "wine glass",
   "remote", "book", "tie", "umbrella", "sports ball",
   "keyboard", "mouse", "tv", "monitor", "camera",
   "vase", "potted plant", "teddy bear"]

/-- `vehicle_items` of `_filter_detections_by_confidence`. -/
def vehicleItems : List String :=
  ["car", "truck", "motorcycle", "bicycle", "bus", "train",
   "skateboard", "scooter"]

/-- `damage_related` of `_filter_detections_by_confidence`. -/
def damageRelated : List String :=
  ["bottle", "baseball bat", "sports ball", "frisbee",
   "skateboard", "scissors", "fork", "spoon", "bowl"]

/-- The per-category confidence threshold chain of
`_filter_detections_by_confidence` (first matching category wins). -/
def filterThreshold (label : String) (minConfidence : ℚ) : ℚ :=
  if criticalLabels.contains label then 0.10
  else if valuableItems.contains label then 0.15
  else if vehicleItems.contains label then 0.20
  else if damageRelated.contains label then 0.20
  else min 0.30 minConfidence

/-- `_filter_detections_by_confidence`: keep an object iff its confidence
reaches its category's threshold. -/
def filterDetectionsByConfidence (frameObjects : List Obj) (minConfidence : ℚ) :
    List Obj :=
  frameObjects.filter
    (fun o => filterThreshold (lowerStr o.label) minConfidence ≤ o.conf)

/-- The area term `w * h` of `_apply_nms` (can be negative for a degenerate
box, exactly as in the source). -/
def bboxArea (b : BBox) : ℚ :=
  (b.x2 - b.x1) * (b.y2 - b.y1)

/-- The clamped intersection area of `_apply_nms`
(`max(0, xx2-xx1) * max(0, yy2-yy1)`). -/
def interArea (b1 b2 : BBox) : ℚ :=
  max 0 (min b1.x2 b2.x2 - max b1.x1 b2.x1) *
    max 0 (min b1.y2 b2.y2 - max b1.y1 b2.y1)

/-- The IoU of `_apply_nms`: `inter / (areas i + areas j - inter)`.  In `ℚ` a
zero denominator (two degenerate boxes) yields 0 where numpy yields NaN; for
the positive-area boxes a detector produces the two agree. -/
def iou (b1 b2 : BBox) : ℚ :=
  interArea b1 b2 / (bboxArea b1 + bboxArea b2 - interArea b1 b2)

/-- The greedy suppression loop of `_apply_nms`: keep the head of the
confidence-ordered list, drop every later box whose IoU with it exceeds the
threshold, recurse on the survivors. -/
def nmsKeep (iouThreshold : ℚ) : List Obj → List Obj
  | [] => []
  | o :: rest =>
    o :: nmsKeep iouThreshold (rest.filter (fun x => iou o.bbox x.bbox ≤ iouThreshold))
termination_by l => l.length
decreasing_by
  simp only [List.length_cons]
  exact Nat.lt_succ_of_le (List.length_filter_le _ _)

/-- The descending-confidence processing order (`confidences.argsort()[::-1]`;
numpy's quicksort leaves tie order unspecified, so the embedding fixes a
stable sort — the pairwise-IoU theorem below is proved for `nmsKeep` of an
arbitrary order, so no conclusion depends on this choice). -/
def sortByConfDesc (objs : List Obj) : List Obj :=
  List.insertionSort (fun a b => b.conf ≤ a.conf) objs

/-- `_apply_nms`. -/
def applyNms (frameObjects : List Obj) (iouThreshold : ℚ) : List Obj :=
  if frameObjects.isEmpty then []
  else nmsKeep iouThreshold (sortByConfDesc frameObjects)

/-! ### Action recognition entry guard (`models.py`, `run_action_recognition`) -/

/-- The control flow of `run_action_recognition` up to its insufficient-frames
guard: empty input returns `[]`, fewer than 8 frames returns `[]` after
sorting by name, and otherwise the clip construction and MoViNet inference run
— those need the image decoder and the TF model, so they are abstracted as the
`processClips` parameter. -/
def runActionRecognition {α : Type} (processClips : List String → List α)
    (frames : List String) : List α :=
  if frames.isEmpty then []
  else
    let framesSorted := List.insertionSort (fun a b : String => a ≤ b) frames
    if framesSorted.length < 8 then [] else processClips framesSorted

/-! ### Motion analysis (`motion_analyzer.py`) -/

/-- A decoded grayscale frame as a pixel matrix.  The source resizes every
decoded frame to 320×240 before differencing; the embedding takes the decoded,
resized frames as input (a failed `cv2.imread` is `none`). -/
abbrev Image := List (List ℕ)

/-- `_calculate_motion_score`: absolute frame difference, binarised at
intensity 25, returned as the percentage of changed pixels. -/
def motionScore (prevFrame currentFrame : Image) : ℚ :=
  let diff := (List.zip prevFrame currentFrame).map
    (fun rc => (List.zip rc.1 rc.2).map (fun pq => max pq.1 pq.2 - min pq.1 pq.2))
  let motionPixels := (diff.map (fun row => (row.filter (fun d => 25 < d)).length)).sum
  let totalPixels := (diff.map List.length).sum
  (motionPixels : ℚ) / (totalPixels : ℚ) * 100

/-- One entry of the `sudden_movements` list (`timestamp` string omitted). -/
structure SuddenMovement where
  frame_index : ℕ
  motion_intensity : ℚ
deriving DecidableEq

/-- The frame loop of `analyze_motion_patterns`: a failed decode is skipped
without touching `prev_frame`; each decoded frame after the first readable one
contributes a motion score, and scores above 50 also a sudden movement. -/
def motionLoop : List (Option Image) → Option Image → ℕ →
    List ℚ × List SuddenMovement
  | [], _, _ => ([], [])
  | f :: rest, prev, idx =>
    match f with
    | none => motionLoop rest prev (idx + 1)
    | some cur =>
      match prev with
      | none => motionLoop rest (some cur) (idx + 1)
      | some p =>
        let sc := motionScore p cur
        let tail := motionLoop rest (some cur) (idx + 1)
        (sc :: tail.1, (if 50 < sc then [⟨idx, sc⟩] else []) ++ tail.2)

/-- The `motion_pattern` dict of `_classify_motion_pattern`
(description omitted). -/
structure MotionPattern where
  category : String
  crime_relevance : String
  confidence : ℚ
deriving DecidableEq

/-- `_classify_motion_pattern` (the source passes the sudden-movement list and
tests its length). -/
def classifyMotionPattern (avgMotion variance : ℚ) (suddenCount : ℕ) :
    MotionPattern :=
  if 3 < suddenCount then
    if 25 < avgMotion then ⟨"chaotic_high_motion", "high", 0.85⟩
    else ⟨"erratic_movement", "medium", 0.70⟩
  else if 30 < avgMotion then ⟨"high_activity", "medium", 0.75⟩
  else if 15 < avgMotion then ⟨"moderate_activity", "low", 0.50⟩
  else if 50 < variance then ⟨"intermittent_activity", "medium", 0.65⟩
  else ⟨"low_activity", "low", 0.40⟩

/-- One entry of the `chase_sequences` list (description omitted). -/
structure ChaseSeq where
  start_frame : ℕ
  duration_frames : ℕ
  avg_intensity : ℚ
deriving DecidableEq

/-- The scan of `_detect_chase_sequences` over the score list. `full` is the
whole `motion_scores` list (the source slices it for the mean), `idx` the
current index, and the last three arguments are `in_chase`, `chase_start`,
`chase_duration`. -/
def chaseGo (full : List ℚ) : List ℚ → ℕ → Bool → ℕ → ℕ → List ChaseSeq
  | [], _, inChase, chaseStart, chaseDuration =>
    if inChase ∧ 3 ≤ chaseDuration then
      [⟨chaseStart, chaseDuration, listAvg ((full.drop chaseStart).take chaseDuration)⟩]
    else []
  | score :: rest, idx, inChase, chaseStart, chaseDuration =>
    if 35 < score then
      if inChase then chaseGo full rest (idx + 1) true chaseStart (chaseDuration + 1)
      else chaseGo full rest (idx + 1) true idx 1
    else
      (if inChase ∧ 3 ≤ chaseDuration then
        [⟨chaseStart, chaseDuration, listAvg ((full.drop chaseStart).take chaseDuration)⟩]
       else []) ++ chaseGo full rest (idx + 1) false chaseStart 0

/-- `_detect_chase_sequences`. -/
def detectChaseSequences (motionScores : List ℚ) : List ChaseSeq :=
  chaseGo motionScores motionScores 0 false 0 0

/-- `np.max` of a score list (nonempty in every use). -/
def listMax : List ℚ → ℚ
  | [] => 0
  | x :: xs => xs.foldl max x

/-- `np.var`: the mean squared deviation from the mean. -/
def listVar (l : List ℚ) : ℚ :=
  listAvg (l.map (fun x => (x - listAvg l) ^ 2))

/-- The result of `analyze_motion_patterns`: either one of the two
`{"analyzed": False, "reason": ...}` dicts or the full statistics dict. -/
inductive MotionResult where
  | notAnalyzed (reason : String)
  | analyzed (average_motion max_motion motion_variance : ℚ)
      (motion_pattern : MotionPattern) (sudden_movements : List SuddenMovement)
      (chase_sequences : List ChaseSeq) (frames_analyzed : ℕ)
deriving DecidableEq

/-- The `analyzed` flag of a motion result. -/
def MotionResult.isAnalyzed : MotionResult → Bool
  | .notAnalyzed _ => false
  | .analyzed _ _ _ _ _ _ _ => true

/-- `analyze_motion_patterns` (only the first 50 frames are examined). -/
def analyzeMotionPatterns (frames : List (Option Image)) : MotionResult :=
  if frames.length < 2 then .notAnalyzed "Insufficient frames"
  else
    let ms := motionLoop (frames.take 50) none 0
    if ms.1.isEmpty then .notAnalyzed "No motion data"
    else
      .analyzed (listAvg ms.1) (listMax ms.1) (listVar ms.1)
        (classifyMotionPattern (listAvg ms.1) (listVar ms.1) ms.2.length)
        ms.2 (detectChaseSequences ms.1) ms.1.length

/-! ### Spec-side definitions

The definitions in this block are written from the specification's words, not
from the source; the refinement theorems below compare them with the source
embeddings above. -/

/-- Modelled from the spec ("a run of ≥3 consecutive frame-pairs each scoring
>35 constitutes one chase sequence"): the maximal runs of consecutive scores
strictly above 35, each paired with its start index.  A run is the maximal
high-scoring prefix from its first element (`takeWhile`), so it is bounded on
both sides by a score ≤ 35 or a list end. -/
def highRuns : ℕ → List ℚ → List (ℕ × List ℚ)
  | _, [] => []
  | i, score :: rest =>
    if 35 < score then
      let run := score :: rest.takeWhile (fun s => 35 < s)
      (i, run) :: highRuns (i + run.length) (rest.dropWhile (fun s => 35 < s))
    else highRuns (i + 1) rest
termination_by _ l => l.length
decreasing_by
  all_goals simp only [List.length_cons]
  · exact Nat.lt_succ_of_le (List.dropWhile_suffix _).sublist.length_le
  · exact Nat.lt_succ_self _

/-- Modelled from the spec: one chase sequence per maximal high run of length
at least 3, recording its start index, its duration, and its mean intensity. -/
def chaseSpecFrom (i : ℕ) (scores : List ℚ) : List ChaseSeq :=
  ((highRuns i scores).filter (fun r => 3 ≤ r.2.length)).map
    (fun r => ⟨r.1, r.2.length, listAvg r.2⟩)

/-- Modelled from the spec (C2): whether some frame contains a weapon. -/
def hasWeaponFrame (detections : List Frame) : Bool :=
  detections.any (fun f => !(weaponsOf f).isEmpty)

/-- Modelled from the spec (C2): whether some frame has a weapon-person pair
whose squared center distance is below `c` (the spec's pixel thresholds
appear squared, as in `bboxDistSq`). -/
def hasPairWithin (detections : List Frame) (c : ℚ) : Bool :=
  detections.any (fun f =>
    (weaponsOf f).any (fun w =>
      (personsOf f).any (fun q => bboxDistSq w.bbox q.bbox < c)))

/-- Modelled from the spec (C2): whether some action label matches a weapon
keyword. -/
def hasWeaponAction (actions : List Clip) : Bool :=
  !(weaponActions actions).isEmpty

/-- Modelled from the spec (C2): the number of frames containing a weapon. -/
def weaponFrameCount (detections : List Frame) : ℕ :=
  detections.countP (fun f => !(weaponsOf f).isEmpty)

/-! ### Concrete inputs used by the verification -/

/-- A backpack detection (bbox and confidence immaterial to the theft logic). -/
def backpackObj : Obj := ⟨"backpack", 0.9, ⟨0, 0, 10, 10⟩⟩

/-- Ten detection frames with a backpack in frames 0 and 1 only. -/
def d10 : List Frame :=
  [⟨"f0", 0, [backpackObj]⟩, ⟨"f1", 1, [backpackObj]⟩, ⟨"f2", 2, []⟩,
   ⟨"f3", 3, []⟩, ⟨"f4", 4, []⟩, ⟨"f5", 5, []⟩, ⟨"f6", 6, []⟩,
   ⟨"f7", 7, []⟩, ⟨"f8", 8, []⟩, ⟨"f9", 9, []⟩]

/-- A single frame with a knife and a person 20 px apart. -/
def knifeFrame : List Frame :=
  [⟨"f0", 0, [⟨"knife", 0.5, ⟨0, 0, 10, 10⟩⟩, ⟨"person", 0.9, ⟨20, 0, 30, 10⟩⟩]⟩]

/-- One clip containing one weapon-keyword action of probability 0.9. -/
def shootClip : List Clip := [⟨0, "middle", [⟨"shooting gun", 0.9⟩]⟩]

/-- One clip containing one theft-keyword action of probability 0. -/
def stealClip : List Clip := [⟨0, "middle", [⟨"stealing", 0⟩]⟩]

end CrimeAI

/-! ## Theorems -/

namespace CrimeAI

/-- Folding `max` over weighted values never drops below the start value. -/
theorem foldlMax_le_init {α : Type} (g : α → ℚ) :
    ∀ (l : List α) (a : ℚ), a ≤ l.foldl (fun m x => max m (g x)) a
  | [], _ => le_refl _
  | x :: xs, a => le_trans (le_max_left a (g x)) (foldlMax_le_init g xs (max a (g x)))

/-- Folding `max` dominates the value of every list member. -/
theorem foldlMax_le_mem {α : Type} (g : α → ℚ) :
    ∀ (l : List α) (a : ℚ) (x : α), x ∈ l → g x ≤ l.foldl (fun m y => max m (g y)) a := by
  intro l
  induction l with
  | nil => intro a x hx; exact absurd hx (List.not_mem_nil x)
  | cons y ys ih =>
    intro a x hx
    rcases List.mem_cons.mp hx with h | h
    · subst h
      exact le_trans (le_max_right a (g x)) (foldlMax_le_init g ys (max a (g x)))
    · exact ih (max a (g y)) x h

/-- The fold of `max` is attained: it is the start value or some member's value. -/
theorem foldlMax_attained {α : Type} (g : α → ℚ) :
    ∀ (l : List α) (a : ℚ),
      l.foldl (fun m y => max m (g y)) a = a ∨
        ∃ x ∈ l, l.foldl (fun m y => max m (g y)) a = g x := by
  intro l
  induction l with
  | nil => intro a; exact Or.inl rfl
  | cons y ys ih =>
    intro a
    rcases ih (max a (g y)) with h | ⟨x, hx, h⟩
    · rcases max_choice a (g y) with hm | hm
      · exact Or.inl (by rw [List.foldl_cons, h, hm])
      · exact Or.inr ⟨y, List.mem_cons_self y ys, by rw [List.foldl_cons, h, hm]⟩
    · exact Or.inr ⟨x, List.mem_cons_of_mem y hx, by rw [List.foldl_cons, h]⟩

/-- A list of values all at most `c` sums to at most `c` times the length. -/
theorem list_sum_le_mul (c : ℚ) :
    ∀ l : List ℚ, (∀ x ∈ l, x ≤ c) → l.sum ≤ c * l.length := by
  intro l
  induction l with
  | nil => intro _; simp
  | cons x xs ih =>
    intro h
    have hx := h x (List.mem_cons_self x xs)
    have hxs := ih (fun y hy => h y (List.mem_cons_of_mem x hy))
    simp only [List.sum_cons, List.length_cons]
    push_cast
    nlinarith

/-- A list of values all at least `c` sums to at least `c` times the length. -/
theorem list_mul_le_sum (c : ℚ) :
    ∀ l : List ℚ, (∀ x ∈ l, c ≤ x) → c * l.length ≤ l.sum := by
  intro l
  induction l with
  | nil => intro _; simp
  | cons x xs ih =>
    intro h
    have hx := h x (List.mem_cons_self x xs)
    have hxs := ih (fun y hy => h y (List.mem_cons_of_mem x hy))
    simp only [List.sum_cons, List.length_cons]
    push_cast
    nlinarith

/-- A list of nonnegative values sums to zero exactly when all of them are zero. -/
theorem list_sum_eq_zero_iff_of_nonneg :
    ∀ l : List ℚ, (∀ x ∈ l, 0 ≤ x) → (l.sum = 0 ↔ ∀ x ∈ l, x = 0) := by
  intro l
  induction l with
  | nil => intro _; simp
  | cons x xs ih =>
    intro h
    have hx := h x (List.mem_cons_self x xs)
    have hxs : ∀ y ∈ xs, (0:ℚ) ≤ y := fun y hy => h y (List.mem_cons_of_mem x hy)
    have hsum : (0:ℚ) ≤ xs.sum := List.sum_nonneg hxs
    constructor
    · intro h0
      simp only [List.sum_cons] at h0
      intro y hy
      rcases List.mem_cons.mp hy with rfl | hy
      · linarith
      · exact (ih hxs).mp (by linarith) y hy
    · intro hall
      simp only [List.sum_cons]
      rw [hall x (List.mem_cons_self x xs), (ih hxs).mpr
        (fun y hy => hall y (List.mem_cons_of_mem x hy))]
      ring

/-- C1 counterexample: an indicator list whose maximal weighted confidence is
exactly 0.85 is bucketed as "critical" by the overall-severity block of
`generate_crime_report`, not as "high" as the claim's example states. -/
theorem c1_counterexample :
    maxWeightedConfidence [⟨"weapon_threat", "high", 0.85⟩] = 0.85 ∧
    overallSeverityOf [⟨"weapon_threat", "high", 0.85⟩] = "critical" ∧
    "critical" ≠ "high" := by with_unfolding_all decide

/-- C1 (amended): `generate_crime_report`'s overall severity is the bucket of
the maximum over its crime indicators of confidence times the per-type
severity weight (weapon_threat 1.0, violent_assault 0.95, armed_robbery 0.90,
physical_fight 0.85, theft_in_progress 0.80, vandalism 0.70,
suspicious_activity 0.60, trespassing 0.50), the buckets being — for a
nonempty indicator list — >0.8 critical, >0.6 high, >0.4 medium, else low,
and safe for an empty list; in particular max weighted confidence 0.85 yields
"critical", 0.35 yields "low", and an empty indicator list yields "safe". -/
theorem c1_overall_severity_bucketing :
    (∀ (d : List Frame) (a : List Clip),
      (generateCrimeReport d a).overall_severity =
        overallSeverityOf (generateCrimeReport d a).crime_indicators) ∧
    (∀ inds : List CrimeIndicator,
      overallSeverityOf inds =
        if inds.isEmpty then "safe"
        else if 0.8 < maxWeightedConfidence inds then "critical"
        else if 0.6 < maxWeightedConfidence inds then "high"
        else if 0.4 < maxWeightedConfidence inds then "medium"
        else "low") ∧
    (∀ (inds : List CrimeIndicator) (ind : CrimeIndicator), ind ∈ inds →
      weightedConfidence ind ≤ maxWeightedConfidence inds) ∧
    (∀ (ind0 : CrimeIndicator) (t : List CrimeIndicator),
      ∃ ind ∈ ind0 :: t, maxWeightedConfidence (ind0 :: t) = weightedConfidence ind) ∧
    (severityWeightOf "weapon_threat" = 1.0 ∧ severityWeightOf "violent_assault" = 0.95 ∧
     severityWeightOf "armed_robbery" = 0.90 ∧ severityWeightOf "physical_fight" = 0.85 ∧
     severityWeightOf "theft_in_progress" = 0.80 ∧ severityWeightOf "vandalism" = 0.70 ∧
     severityWeightOf "suspicious_activity" = 0.60 ∧ severityWeightOf "trespassing" = 0.50) ∧
    overallSeverityOf [⟨"weapon_threat", "high", 0.35⟩] = "low" ∧
    overallSeverityOf ([] : List CrimeIndicator) = "safe" := by
  refine ⟨fun d a => rfl, fun inds => rfl, ?_, ?_, by with_unfolding_all decide,
    by with_unfolding_all decide, by with_unfolding_all decide⟩
  · intro inds ind hmem
    match inds, hmem with
    | i :: t, hmem =>
      rcases List.mem_cons.mp hmem with rfl | h
      · exact foldlMax_le_init weightedConfidence t (weightedConfidence ind)
      · exact foldlMax_le_mem weightedConfidence t (weightedConfidence i) ind h
  · intro ind0 t
    rcases foldlMax_attained weightedConfidence t (weightedConfidence ind0) with h | ⟨x, hx, h⟩
    · exact ⟨ind0, List.mem_cons_self ind0 t, h⟩
    · exact ⟨x, List.mem_cons_of_mem ind0 hx, h⟩

/-- Witness for the C1 theorem: the max-bound and max-attained conjuncts at a
concrete singleton indicator list. -/
theorem c1_overall_severity_bucketing_witness :
    weightedConfidence ⟨"weapon_threat", "high", 0.9⟩ ≤
      maxWeightedConfidence [⟨"weapon_threat", "high", 0.9⟩] ∧
    ∃ ind ∈ [(⟨"weapon_threat", "high", 0.9⟩ : CrimeIndicator)],
      maxWeightedConfidence [⟨"weapon_threat", "high", 0.9⟩] = weightedConfidence ind :=
  ⟨c1_overall_severity_bucketing.2.2.1 _ _ (List.mem_singleton_self _),
   c1_overall_severity_bucketing.2.2.2.1 _ []⟩

/-- C5: on ten frames with a backpack in frames 0 and 1 only and no actions,
the theft analyzer emits exactly one disappearance candidate, for "backpack",
with suspicion score 0.8 and duration ratio 1/10, and theft probability
0.8 × 0.8 = 0.64. -/
theorem c5_backpack_scenario :
    (analyzeTheftPatterns d10 []).valuable_disappearances =
      [⟨"backpack", 0, 1, 1/10, 0.8⟩] ∧
    (analyzeTheftPatterns d10 []).theft_probability = 0.64 ∧
    (analyzeTheftPatterns d10 []).theft_actions = [] := by with_unfolding_all decide

/-- C7: for a probability in [0,1] the violence-intensity function is monotone
in the keyword tier: other ≤ medium ≤ high ≤ extreme. -/
theorem c7_intensity_monotone (p : ℚ) (hp0 : 0 ≤ p) (hp1 : p ≤ 1)
    (lblE lblH lblM lblO : String)
    (hE : anyKeyword extremeViolence (lowerStr lblE) = true)
    (hH1 : anyKeyword highViolence (lowerStr lblH) = true)
    (hH2 : anyKeyword extremeViolence (lowerStr lblH) = false)
    (hM1 : anyKeyword mediumViolence (lowerStr lblM) = true)
    (hM2 : anyKeyword extremeViolence (lowerStr lblM) = false)
    (hM3 : anyKeyword highViolence (lowerStr lblM) = false)
    (hO1 : anyKeyword extremeViolence (lowerStr lblO) = false)
    (hO2 : anyKeyword highViolence (lowerStr lblO) = false)
    (hO3 : anyKeyword mediumViolence (lowerStr lblO) = false) :
    calculateViolenceIntensity lblO p ≤ calculateViolenceIntensity lblM p ∧
    calculateViolenceIntensity lblM p ≤ calculateViolenceIntensity lblH p ∧
    calculateViolenceIntensity lblH p ≤ calculateViolenceIntensity lblE p := by
  simp only [calculateViolenceIntensity, hE, hH1, hH2, hM1, hM2, hM3, hO1, hO2, hO3,
    if_true, if_false, Bool.false_eq_true]
  have h1 : (1.0 : ℚ) ≤ 1.0 := le_refl _
  refine ⟨le_min (by nlinarith) (by nlinarith), ?_, ?_⟩
  · exact min_le_min h1 (by nlinarith)
  · exact min_le_min h1 (by nlinarith)

/-- Witness for the C7 theorem at probability 0.5 with the labels
"shooting gun" (extreme), "punching" (high), "fighting" (medium),
"dancing" (other). -/
theorem c7_intensity_monotone_witness :
    calculateViolenceIntensity "dancing" 0.5 ≤ calculateViolenceIntensity "fighting" 0.5 ∧
    calculateViolenceIntensity "fighting" 0.5 ≤ calculateViolenceIntensity "punching" 0.5 ∧
    calculateViolenceIntensity "punching" 0.5 ≤ calculateViolenceIntensity "shooting gun" 0.5 :=
  c7_intensity_monotone 0.5 (by norm_num) (by norm_num)
    "shooting gun" "punching" "fighting" "dancing"
    (by with_unfolding_all decide) (by with_unfolding_all decide)
    (by with_unfolding_all decide) (by with_unfolding_all decide)
    (by with_unfolding_all decide) (by with_unfolding_all decide)
    (by with_unfolding_all decide) (by with_unfolding_all decide)
    (by with_unfolding_all decide)

/-- Every theft-action entry's confidence is the probability of some top
action of some clip of the input. -/
theorem theftActions_confidence {a : List Clip} {ta : TheftActionEntry}
    (h : ta ∈ theftActions a) :
    ∃ clip ∈ a, ∃ act ∈ clip.top_actions, ta.confidence = act.prob := by
  simp only [theftActions, List.mem_flatMap] at h
  obtain ⟨clip, hclip, act, hact, hmem⟩ := h
  refine ⟨clip, hclip, act, hact, ?_⟩
  split at hmem
  · rw [List.mem_singleton.mp hmem]
  · exact absurd hmem (List.not_mem_nil ta)

/-- Every disappearance candidate's suspicion score is 0.8 or 0.6. -/
theorem disappearance_suspicion {d : List Frame} {x : Disappearance}
    (h : x ∈ valuableDisappearances d) :
    x.suspicion_score = 0.8 ∨ x.suspicion_score = 0.6 := by
  simp only [valuableDisappearances, List.mem_filterMap] at h
  obtain ⟨p, _, hmk⟩ := h
  simp only [mkDisappearance] at hmk
  split at hmk
  · split at hmk
    · rw [← Option.some_inj.mp hmk]
      split
      · exact Or.inl rfl
      · exact Or.inr rfl
    · exact absurd hmk (by simp)
  · exact absurd hmk (by simp)

/-- Every disappearance candidate's suspicion score is at least 0.6. -/
theorem disappearance_suspicion_ge {d : List Frame} {x : Disappearance}
    (h : x ∈ valuableDisappearances d) : (0.6 : ℚ) ≤ x.suspicion_score := by
  rcases disappearance_suspicion h with h | h <;> rw [h] <;> norm_num

/-- Every disappearance candidate's suspicion score is at most 0.8. -/
theorem disappearance_suspicion_le {d : List Frame} {x : Disappearance}
    (h : x ∈ valuableDisappearances d) : x.suspicion_score ≤ (0.8 : ℚ) := by
  rcases disappearance_suspicion h with h | h <;> rw [h] <;> norm_num

/-- The disappearance evidence score of a nonempty candidate list lies in
[0.6, 0.8]. -/
theorem disappearanceScore_bounds {d : List Frame}
    (hne : valuableDisappearances d ≠ []) :
    (0.6 : ℚ) ≤ ((valuableDisappearances d).map (fun x => x.suspicion_score)).sum /
        max 1 ((valuableDisappearances d).length : ℚ) ∧
      ((valuableDisappearances d).map (fun x => x.suspicion_score)).sum /
        max 1 ((valuableDisappearances d).length : ℚ) ≤ 0.8 := by
  set l := (valuableDisappearances d).map (fun x => x.suspicion_score) with hl
  have hlen : l.length = (valuableDisappearances d).length := List.length_map _ _
  have hpos : 1 ≤ ((valuableDisappearances d).length : ℚ) := by
    have := List.length_pos.mpr hne
    exact_mod_cast this
  have hmax : max 1 ((valuableDisappearances d).length : ℚ) =
      ((valuableDisappearances d).length : ℚ) := max_eq_right hpos
  have hlo : (0.6 : ℚ) * l.length ≤ l.sum := by
    refine list_mul_le_sum _ l (fun x hx => ?_)
    obtain ⟨y, hy, rfl⟩ := List.mem_map.mp hx
    exact disappearance_suspicion_ge hy
  have hhi : l.sum ≤ (0.8 : ℚ) * l.length := by
    refine list_sum_le_mul _ l (fun x hx => ?_)
    obtain ⟨y, hy, rfl⟩ := List.mem_map.mp hx
    exact disappearance_suspicion_le hy
  rw [hmax]
  rw [hlen] at hlo hhi
  constructor
  · rw [le_div_iff (by linarith)]
    linarith
  · rw [div_le_iff (by linarith)]
    linarith

/-- C6 counterexample: a theft action of probability 0 (a legal probability in
[0,1]) yields theft probability 0 with a nonempty theft-action list, so
theft probability 0 does not imply that both evidence lists are empty. -/
theorem c6_counterexample :
    (∀ clip ∈ stealClip, ∀ act ∈ clip.top_actions, 0 ≤ act.prob ∧ act.prob ≤ 1) ∧
    (analyzeTheftPatterns [] stealClip).theft_probability = 0 ∧
    (analyzeTheftPatterns [] stealClip).theft_actions ≠ [] := by
  with_unfolding_all decide

/-- C6 (amended): for nonnegative action probabilities, the theft probability
is 0 iff the valuable-disappearance list is empty and every theft action has
probability 0; with all probabilities positive this reduces to both lists
being empty. -/
theorem c6_theft_probability_zero_iff (d : List Frame) (a : List Clip)
    (hprob : ∀ clip ∈ a, ∀ act ∈ clip.top_actions, 0 ≤ act.prob) :
    (analyzeTheftPatterns d a).theft_probability = 0 ↔
      (analyzeTheftPatterns d a).valuable_disappearances = [] ∧
      ∀ ta ∈ (analyzeTheftPatterns d a).theft_actions, ta.confidence = 0 := by
  have hfields : (analyzeTheftPatterns d a).theft_probability =
      calculateTheftProbability (valuableDisappearances d) (theftActions a) := rfl
  have hvd : (analyzeTheftPatterns d a).valuable_disappearances =
      valuableDisappearances d := rfl
  have hta : (analyzeTheftPatterns d a).theft_actions = theftActions a := rfl
  have hconf_nonneg : ∀ ta ∈ theftActions a, (0:ℚ) ≤ ta.confidence := by
    intro ta hmem
    obtain ⟨clip, hclip, act, hact, heq⟩ := theftActions_confidence hmem
    rw [heq]
    exact hprob clip hclip act hact
  rw [hfields, hvd, hta]
  simp only [calculateTheftProbability]
  by_cases hd : valuableDisappearances d = []
  · by_cases ht : theftActions a = []
    · rw [if_pos ⟨by simp [hd], by simp [ht]⟩, ht]
      constructor
      · intro _
        exact ⟨hd, fun ta h => absurd h (List.not_mem_nil ta)⟩
      · intro _
        norm_num
    · rw [if_neg (by simp [ht]), if_neg (by simp [hd]), if_neg (by simp [hd])]
      have hlpos : 1 ≤ ((theftActions a).length : ℚ) := by
        have := List.length_pos.mpr ht
        exact_mod_cast this
      have hmax : max 1 ((theftActions a).length : ℚ) = ((theftActions a).length : ℚ) :=
        max_eq_right hlpos
      rw [hmax]
      have hsum0 : ((theftActions a).map (fun x => x.confidence)).sum = 0 ↔
          ∀ ta ∈ theftActions a, ta.confidence = 0 := by
        rw [list_sum_eq_zero_iff_of_nonneg _ (fun x hx => by
          obtain ⟨y, hy, rfl⟩ := List.mem_map.mp hx
          exact hconf_nonneg y hy)]
        constructor
        · intro h ta hta2
          exact h ta.confidence (List.mem_map_of_mem _ hta2)
        · intro h x hx
          obtain ⟨y, hy, rfl⟩ := List.mem_map.mp hx
          exact h y hy
      constructor
      · intro h0
        refine ⟨hd, hsum0.mp ?_⟩
        have hlne : ((theftActions a).length : ℚ) ≠ 0 := by linarith
        rcases mul_eq_zero.mp h0 with h | h
        · exact (div_eq_zero_iff.mp h).resolve_right hlne
        · norm_num at h
      · rintro ⟨-, hall⟩
        rw [hsum0.mpr hall]
        simp
  · have hvdne : ¬(valuableDisappearances d).isEmpty = true := by simp [hd]
    have hdpos : (0:ℚ) <
        ((valuableDisappearances d).map (fun x => x.suspicion_score)).sum /
          max 1 ((valuableDisappearances d).length : ℚ) := by
      have := (disappearanceScore_bounds hd).1
      linarith
    rw [if_neg (by simp [hd])]
    constructor
    · intro h0
      exfalso
      by_cases ht : theftActions a = []
      · rw [if_neg (by simp [ht]), if_pos hvdne] at h0
        nlinarith
      · have haspos : (0:ℚ) ≤
            ((theftActions a).map (fun x => x.confidence)).sum /
              max 1 ((theftActions a).length : ℚ) := by
          apply div_nonneg
          · exact List.sum_nonneg (fun x hx => by
              obtain ⟨y, hy, rfl⟩ := List.mem_map.mp hx
              exact hconf_nonneg y hy)
          · exact le_trans zero_le_one (le_max_left _ _)
        rw [if_pos ⟨hvdne, by simp [ht]⟩] at h0
        have hmin : (0:ℚ) < min 1.0
            ((((valuableDisappearances d).map (fun x => x.suspicion_score)).sum /
                max 1 ((valuableDisappearances d).length : ℚ) +
              ((theftActions a).map (fun x => x.confidence)).sum /
                max 1 ((theftActions a).length : ℚ)) / 2 * 1.2) := by
          apply lt_min
          · norm_num
          · nlinarith
        rw [h0] at hmin
        exact lt_irrefl 0 hmin
    · rintro ⟨habs, -⟩
      exact absurd habs hd

/-- Witness for the C6 theorem: empty detections and actions give theft
probability 0. -/
theorem c6_theft_probability_zero_iff_witness :
    (analyzeTheftPatterns [] []).theft_probability = 0 :=
  (c6_theft_probability_zero_iff [] [] (by simp)).mpr
    ⟨by with_unfolding_all decide, by with_unfolding_all decide⟩

/-- The maximal weighted confidence dominates every indicator's weighted
confidence. -/
theorem weightedConfidence_le_max {inds : List CrimeIndicator}
    {ind : CrimeIndicator} (h : ind ∈ inds) :
    weightedConfidence ind ≤ maxWeightedConfidence inds := by
  match inds, h with
  | i :: t, h =>
    rcases List.mem_cons.mp h with rfl | h
    · exact foldlMax_le_init weightedConfidence t (weightedConfidence ind)
    · exact foldlMax_le_mem weightedConfidence t (weightedConfidence i) ind h

/-- The overall-severity block yields "critical" on a nonempty indicator list
whose maximal weighted confidence exceeds 0.8. -/
theorem overallSeverityOf_critical {inds : List CrimeIndicator}
    (hne : inds ≠ []) (h : 0.8 < maxWeightedConfidence inds) :
    overallSeverityOf inds = "critical" := by
  simp only [overallSeverityOf]
  rw [if_neg (by simpa using hne), if_pos h]

/-- C9: whenever the weapon-threat analyzer reports detected (at least one
weapon frame), the generated crime report has overall severity "critical":
the weapon indicator is added with fixed confidence 0.9 and severity weight
1.0, so the maximal weighted confidence is at least 0.9 > 0.8. -/
theorem c9_weapon_detected_critical (d : List Frame) (a : List Clip)
    (hdet : (analyzeWeaponThreat d a).detected = true) :
    (generateCrimeReport d a).overall_severity = "critical" := by
  have hrep : (generateCrimeReport d a).overall_severity =
      overallSeverityOf (crimeIndicatorsOf (analyzeWeaponThreat d a)
        (analyzeViolenceIntensity a d) (analyzeTheftPatterns d a)
        (analyzeSuspiciousBehavior d a)) := rfl
  rw [hrep]
  set w := analyzeWeaponThreat d a with hw
  set v := analyzeViolenceIntensity a d with hv
  set t := analyzeTheftPatterns d a with ht
  set s := analyzeSuspiciousBehavior d a with hs
  have hmem : (⟨"weapon_threat", w.threat_level, 0.9⟩ : CrimeIndicator) ∈
      crimeIndicatorsOf w v t s := by
    unfold crimeIndicatorsOf
    rw [if_pos hdet]
    exact List.mem_append_left _ (List.mem_append_left _
      (List.mem_append_left _ (List.mem_singleton_self _)))
  have hne : crimeIndicatorsOf w v t s ≠ [] := by
    intro hempty
    rw [hempty] at hmem
    exact List.not_mem_nil _ hmem
  have hwc : weightedConfidence ⟨"weapon_threat", w.threat_level, 0.9⟩ = 0.9 := by
    have h1 : severityWeightOf "weapon_threat" = 1 := by with_unfolding_all decide
    simp only [weightedConfidence, h1, mul_one]
  have hle := weightedConfidence_le_max hmem
  rw [hwc] at hle
  exact overallSeverityOf_critical hne (by nlinarith)

/-- Witness for the C9 theorem: a single frame with a knife and a person. -/
theorem c9_weapon_detected_critical_witness :
    (analyzeWeaponThreat knifeFrame []).detected = true ∧
    (generateCrimeReport knifeFrame []).overall_severity = "critical" :=
  ⟨by with_unfolding_all decide,
   c9_weapon_detected_critical knifeFrame [] (by with_unfolding_all decide)⟩

/-- The theft probability never exceeds 1 when every action probability is at
most 1 (the disappearance evidence scores are bounded by 0.8 on their own). -/
theorem theftProbability_le_one (d : List Frame) (a : List Clip)
    (hprob : ∀ clip ∈ a, ∀ act ∈ clip.top_actions, act.prob ≤ 1) :
    calculateTheftProbability (valuableDisappearances d) (theftActions a) ≤ 1 := by
  have hconf : ∀ ta ∈ theftActions a, ta.confidence ≤ (1:ℚ) := by
    intro ta hmem
    obtain ⟨clip, hclip, act, hact, heq⟩ := theftActions_confidence hmem
    rw [heq]
    exact hprob clip hclip act hact
  simp only [calculateTheftProbability]
  by_cases hd : valuableDisappearances d = []
  · by_cases htx : theftActions a = []
    · rw [if_pos ⟨by simp [hd], by simp [htx]⟩]
      norm_num
    · rw [if_neg (by simp [htx]), if_neg (by simp [hd]), if_neg (by simp [hd])]
      have hlpos : 1 ≤ ((theftActions a).length : ℚ) := by
        have := List.length_pos.mpr htx
        exact_mod_cast this
      have hmax : max 1 ((theftActions a).length : ℚ) = ((theftActions a).length : ℚ) :=
        max_eq_right hlpos
      have hsum : ((theftActions a).map (fun x => x.confidence)).sum ≤
          1 * (((theftActions a).map (fun x => x.confidence)).length : ℚ) := by
        refine list_sum_le_mul _ _ (fun x hx => ?_)
        obtain ⟨y, hy, rfl⟩ := List.mem_map.mp hx
        exact hconf y hy
      rw [hmax]
      rw [List.length_map] at hsum
      have hdiv : ((theftActions a).map (fun x => x.confidence)).sum /
          ((theftActions a).length : ℚ) ≤ 1 := by
        rw [div_le_one (by linarith)]
        linarith
      nlinarith
  · by_cases htx : theftActions a = []
    · rw [if_neg (by simp [hd]), if_neg (by simp [htx]), if_pos (by simp [hd])]
      have := (disappearanceScore_bounds hd).2
      nlinarith
    · rw [if_neg (by simp [hd]), if_pos ⟨by simp [hd], by simp [htx]⟩]
      exact le_trans (min_le_left _ _) (by norm_num)

/-- C10: the theft indicator's type "theft_or_robbery" is absent from the
severity-weight table and so receives the default weight 0.5; consequently,
when the report's only crime indicator is the theft indicator (and action
probabilities are at most 1), the overall severity is "medium" or "low",
never "high" or "critical". -/
theorem c10_theft_indicator_default_weight :
    severityWeightsList.lookup "theft_or_robbery" = none ∧
    severityWeightOf "theft_or_robbery" = 0.5 ∧
    ∀ (d : List Frame) (a : List Clip),
      (∀ clip ∈ a, ∀ act ∈ clip.top_actions, act.prob ≤ 1) →
      ∀ ind : CrimeIndicator,
        (generateCrimeReport d a).crime_indicators = [ind] →
        ind.itype = "theft_or_robbery" →
        ((generateCrimeReport d a).overall_severity = "medium" ∨
          (generateCrimeReport d a).overall_severity = "low") := by
  refine ⟨by with_unfolding_all decide, by with_unfolding_all decide, ?_⟩
  intro d a hprob ind hind hty
  have hrep : (generateCrimeReport d a).overall_severity =
      overallSeverityOf (generateCrimeReport d a).crime_indicators := rfl
  rw [hrep, hind]
  have hindlist : (generateCrimeReport d a).crime_indicators =
      crimeIndicatorsOf (analyzeWeaponThreat d a) (analyzeViolenceIntensity a d)
        (analyzeTheftPatterns d a) (analyzeSuspiciousBehavior d a) := rfl
  have hind2 := hind
  rw [hindlist] at hind2
  set w := analyzeWeaponThreat d a with hw
  set v := analyzeViolenceIntensity a d with hv
  set t := analyzeTheftPatterns d a with htdef
  set s := analyzeSuspiciousBehavior d a with hs
  unfold crimeIndicatorsOf at hind2
  by_cases h1 : w.detected = true
  · rw [if_pos h1] at hind2
    simp only [List.singleton_append, List.cons_append] at hind2
    injection hind2 with hx _
    rw [← hx] at hty
    exact absurd (show ("weapon_threat" : String) = "theft_or_robbery" from hty)
      (by with_unfolding_all decide)
  · rw [if_neg h1, List.nil_append] at hind2
    by_cases h2 : v.detected = true ∧ 0.5 < v.violence_score
    · rw [if_pos h2] at hind2
      simp only [List.singleton_append, List.cons_append] at hind2
      injection hind2 with hx _
      rw [← hx] at hty
      exact absurd (show ("violent_assault" : String) = "theft_or_robbery" from hty)
        (by with_unfolding_all decide)
    · rw [if_neg h2, List.nil_append] at hind2
      by_cases h3 : t.detected = true ∧ 0.4 < t.theft_probability
      · rw [if_pos h3] at hind2
        simp only [List.singleton_append, List.cons_append] at hind2
        injection hind2 with hx _
        have hple : t.theft_probability ≤ 1 := theftProbability_le_one d a hprob
        have hp04 : (0.4 : ℚ) < t.theft_probability := h3.2
        have hmaxval : maxWeightedConfidence [ind] = weightedConfidence ind := rfl
        have hwc : weightedConfidence ind = t.theft_probability * 0.5 := by
          rw [← hx]
          simp only [weightedConfidence]
          have h5 : severityWeightOf "theft_or_robbery" = 0.5 := by
            with_unfolding_all decide
          rw [h5]
        simp only [overallSeverityOf]
        rw [if_neg (by simp), hmaxval, hwc]
        rw [if_neg (by nlinarith), if_neg (by nlinarith)]
        rcases lt_or_le (0.4 : ℚ) (t.theft_probability * 0.5) with hc | hc
        · rw [if_pos hc]
          exact Or.inl rfl
        · rw [if_neg (by linarith)]
          exact Or.inr rfl
      · rw [if_neg h3, List.nil_append] at hind2
        by_cases h4 : s.detected = true ∧ 0.5 < s.suspicion_score
        · rw [if_pos h4] at hind2
          injection hind2 with hx _
          rw [← hx] at hty
          exact absurd (show ("suspicious_activity" : String) = "theft_or_robbery" from hty)
            (by with_unfolding_all decide)
        · rw [if_neg h4] at hind2
          exact absurd hind2 (by simp)

/-- Witness for the C10 theorem: the backpack scenario, whose report carries
exactly the theft indicator with confidence 0.64. -/
theorem c10_theft_indicator_default_weight_witness :
    (generateCrimeReport d10 []).crime_indicators =
      [⟨"theft_or_robbery", "medium", 0.64⟩] ∧
    ((generateCrimeReport d10 []).overall_severity = "medium" ∨
      (generateCrimeReport d10 []).overall_severity = "low") :=
  ⟨by with_unfolding_all decide,
   c10_theft_indicator_default_weight.2.2 d10 [] (by simp)
     ⟨"theft_or_robbery", "medium", 0.64⟩
     (by with_unfolding_all decide) rfl⟩

/-- The clamped intersection area is symmetric in its two boxes. -/
theorem interArea_comm (b1 b2 : BBox) : interArea b1 b2 = interArea b2 b1 := by
  simp only [interArea]
  rw [min_comm b1.x2, max_comm b1.x1, min_comm b1.y2, max_comm b1.y1]

/-- The IoU is symmetric in its two boxes. -/
theorem iou_comm (b1 b2 : BBox) : iou b1 b2 = iou b2 b1 := by
  simp only [iou, interArea_comm b1 b2, add_comm (bboxArea b1)]

/-- Every box kept by the suppression loop comes from its input list. -/
theorem nmsKeep_subset (thr : ℚ) :
    ∀ (l : List Obj) (x : Obj), x ∈ nmsKeep thr l → x ∈ l := by
  have H : ∀ (n : ℕ) (l : List Obj), l.length ≤ n →
      ∀ x, x ∈ nmsKeep thr l → x ∈ l := by
    intro n
    induction n with
    | zero =>
      intro l hl x hx
      have hnil : l = [] := List.eq_nil_of_length_eq_zero (Nat.le_zero.mp hl)
      subst hnil
      rw [nmsKeep] at hx
      exact hx
    | succ n ih =>
      intro l hl x hx
      match l with
      | [] =>
        rw [nmsKeep] at hx
        exact hx
      | o :: rest =>
        rw [nmsKeep] at hx
        rcases List.mem_cons.mp hx with rfl | hx2
        · exact List.mem_cons_self _ _
        · have hlen : (rest.filter (fun y => decide (iou o.bbox y.bbox ≤ thr))).length ≤ n := by
            have hfl := List.length_filter_le
              (fun y => decide (iou o.bbox y.bbox ≤ thr)) rest
            simp only [List.length_cons] at hl
            omega
          exact List.mem_cons_of_mem o
            (List.mem_of_mem_filter (ih _ hlen x hx2))
  intro l x hx
  exact H l.length l (le_refl _) x hx

/-- No box survives the suppression loop together with an earlier-kept box of
IoU above the threshold: the kept list is pairwise below the threshold. -/
theorem nmsKeep_pairwise (thr : ℚ) (l : List Obj) :
    List.Pairwise (fun a b => iou a.bbox b.bbox ≤ thr) (nmsKeep thr l) := by
  have H : ∀ (n : ℕ) (l : List Obj), l.length ≤ n →
      List.Pairwise (fun a b => iou a.bbox b.bbox ≤ thr) (nmsKeep thr l) := by
    intro n
    induction n with
    | zero =>
      intro l hl
      have hnil : l = [] := List.eq_nil_of_length_eq_zero (Nat.le_zero.mp hl)
      subst hnil
      rw [nmsKeep]
      exact List.Pairwise.nil
    | succ n ih =>
      intro l hl
      match l with
      | [] =>
        rw [nmsKeep]
        exact List.Pairwise.nil
      | o :: rest =>
        rw [nmsKeep]
        have hlen : (rest.filter (fun y => decide (iou o.bbox y.bbox ≤ thr))).length ≤ n := by
          have hfl := List.length_filter_le
            (fun y => decide (iou o.bbox y.bbox ≤ thr)) rest
          simp only [List.length_cons] at hl
          omega
        refine List.Pairwise.cons ?_ (ih _ hlen)
        intro b hb
        have hbf := nmsKeep_subset thr _ b hb
        exact of_decide_eq_true (List.mem_filter.mp hbf).2
  exact H l.length l (le_refl _)

/-- C3: the confidence filter keeps an object iff its confidence reaches its
category's threshold; after non-max suppression at IoU threshold 0.45, no two
surviving boxes of a frame have IoU exceeding 0.45 (in either orientation);
and empty input yields empty output for both stages. -/
theorem c3_filter_and_nms (objs : List Obj) (mc : ℚ) :
    (∀ o : Obj, o ∈ filterDetectionsByConfidence objs mc ↔
      o ∈ objs ∧ filterThreshold (lowerStr o.label) mc ≤ o.conf) ∧
    List.Pairwise (fun a b => iou a.bbox b.bbox ≤ 0.45 ∧ iou b.bbox a.bbox ≤ 0.45)
      (applyNms (filterDetectionsByConfidence objs mc) 0.45) ∧
    filterDetectionsByConfidence [] mc = [] ∧
    applyNms [] 0.45 = [] := by
  refine ⟨?_, ?_, rfl, rfl⟩
  · intro o
    simp [filterDetectionsByConfidence, List.mem_filter]
  · unfold applyNms
    split
    · exact List.Pairwise.nil
    · refine (nmsKeep_pairwise 0.45 _).imp ?_
      intro a b hab
      exact ⟨hab, by rw [iou_comm]; exact hab⟩

/-- A fold of `min` drops below `c` exactly when the start or some element
does. -/
theorem foldl_min_lt_iff :
    ∀ (ds : List ℚ) (d c : ℚ), ds.foldl min d < c ↔ d < c ∨ ∃ x ∈ ds, x < c := by
  intro ds
  induction ds with
  | nil =>
    intro d c
    simp
  | cons x xs ih =>
    intro d c
    rw [List.foldl_cons, ih, min_lt_iff]
    constructor
    · rintro ((h | h) | ⟨y, hy, hlt⟩)
      · exact Or.inl h
      · exact Or.inr ⟨x, List.mem_cons_self _ _, h⟩
      · exact Or.inr ⟨y, List.mem_cons_of_mem _ hy, hlt⟩
    · rintro (h | ⟨y, hy, hlt⟩)
      · exact Or.inl (Or.inl h)
      · rcases List.mem_cons.mp hy with rfl | hy2
        · exact Or.inl (Or.inr hlt)
        · exact Or.inr ⟨y, hy2, hlt⟩

/-- The minimum weapon-person distance drops below `c` exactly when some
person is within `c`. -/
theorem minDistSqToPersons_lt_iff (w : Obj) (ps : List Obj) (c : ℚ)
    (hne : ps ≠ []) :
    minDistSqToPersons w ps < c ↔ ∃ q ∈ ps, bboxDistSq w.bbox q.bbox < c := by
  match ps, hne with
  | q0 :: qs, _ =>
    show (qs.map (fun p => bboxDistSq w.bbox p.bbox)).foldl min
        (bboxDistSq w.bbox q0.bbox) < c ↔ _
    rw [foldl_min_lt_iff]
    constructor
    · rintro (h | ⟨x, hx, hlt⟩)
      · exact ⟨q0, List.mem_cons_self _ _, h⟩
      · obtain ⟨q, hq, rfl⟩ := List.mem_map.mp hx
        exact ⟨q, List.mem_cons_of_mem _ hq, hlt⟩
    · rintro ⟨q, hq, hlt⟩
      rcases List.mem_cons.mp hq with rfl | hq2
      · exact Or.inl hlt
      · exact Or.inr ⟨_, List.mem_map_of_mem _ hq2, hlt⟩

/-- A frame contributes a proximity entry below `c` exactly when it has a
weapon-person pair below `c`. -/
theorem frameProximity_exists_iff (f : Frame) (c : ℚ) :
    (∃ p ∈ frameProximity f, p.distSq < c) ↔
      ∃ w ∈ weaponsOf f, ∃ q ∈ personsOf f, bboxDistSq w.bbox q.bbox < c := by
  unfold frameProximity
  by_cases hws : (weaponsOf f).isEmpty
  · rw [if_pos hws]
    rw [List.isEmpty_iff] at hws
    simp [hws]
  · rw [if_neg hws]
    by_cases hps : (personsOf f).isEmpty
    · rw [if_pos hps]
      rw [List.isEmpty_iff] at hps
      simp [hps]
    · rw [if_neg hps]
      have hpsne : personsOf f ≠ [] := by
        intro h
        rw [h] at hps
        exact hps rfl
      constructor
      · rintro ⟨p, hp, hlt⟩
        obtain ⟨w, hw, rfl⟩ := List.mem_map.mp hp
        obtain ⟨q, hq, hqlt⟩ :=
          (minDistSqToPersons_lt_iff w (personsOf f) c hpsne).mp hlt
        exact ⟨w, hw, q, hq, hqlt⟩
      · rintro ⟨w, hw, q, hq, hqlt⟩
        refine ⟨⟨f.frame_index, minDistSqToPersons w (personsOf f), w.label⟩,
          List.mem_map_of_mem _ hw, ?_⟩
        exact (minDistSqToPersons_lt_iff w (personsOf f) c hpsne).mpr ⟨q, hq, hqlt⟩

/-- The proximity list has an entry below `c` exactly when some frame has a
weapon-person pair below `c`. -/
theorem proximity_count_pos_iff (d : List Frame) (c : ℚ) :
    0 < ((d.flatMap frameProximity).filter (fun p => decide (p.distSq < c))).length ↔
      hasPairWithin d c = true := by
  rw [List.length_pos_iff_exists_mem]
  unfold hasPairWithin
  simp only [List.mem_filter, decide_eq_true_eq, List.any_eq_true]
  constructor
  · rintro ⟨p, hp, hlt⟩
    obtain ⟨f, hf, hpf⟩ := List.mem_flatMap.mp hp
    obtain ⟨w, hw, q, hq, hqlt⟩ :=
      (frameProximity_exists_iff f c).mp ⟨p, hpf, hlt⟩
    exact ⟨f, hf, w, hw, q, hq, hqlt⟩
  · rintro ⟨f, hf, w, hw, q, hq, hqlt⟩
    obtain ⟨p, hpf, hlt⟩ :=
      (frameProximity_exists_iff f c).mpr ⟨w, hw, q, hq, hqlt⟩
    exact ⟨p, List.mem_flatMap.mpr ⟨f, hf, hpf⟩, hlt⟩

/-- The `weapon_frames` list has one entry per frame containing a weapon. -/
theorem weaponFrames_length (d : List Frame) :
    (weaponFrames d).length = weaponFrameCount d := by
  unfold weaponFrames weaponFrameCount
  induction d with
  | nil => rfl
  | cons f fs ih =>
    rw [List.flatMap_cons, List.length_append, ih, List.countP_cons]
    unfold frameWeaponEntries
    by_cases h : (weaponsOf f).isEmpty
    · rw [if_pos h]
      simp [h]
    · rw [if_neg h]
      simp [h]
      omega

/-- C2 counterexample: an input whose actions contain a weapon-action but
whose frames contain no weapon object yields threat level "none", not
"critical" as the claim states. -/
theorem c2_counterexample :
    (analyzeWeaponThreat [] shootClip).weapon_actions ≠ [] ∧
    (analyzeWeaponThreat [] shootClip).threat_level = "none" ∧
    (analyzeWeaponThreat [] shootClip).threat_level ≠ "critical" := by
  with_unfolding_all decide

/-- C2 (amended): the threat level is "none" whenever no frame contains a
weapon (regardless of weapon-actions); otherwise it is "critical" if some
weapon-person pair is within distance 300 or some weapon-action exists,
else "high" if some pair is within 500 or weapons appear in more than 2
frames, else "medium". -/
theorem c2_threat_level_characterization (d : List Frame) (a : List Clip) :
    (analyzeWeaponThreat d a).threat_level =
      if hasWeaponFrame d = false then "none"
      else if hasPairWithin d (300 ^ 2) || hasWeaponAction a then "critical"
      else if hasPairWithin d (500 ^ 2) || decide (2 < weaponFrameCount d) then "high"
      else "medium" := by
  have hthr : (analyzeWeaponThreat d a).threat_level =
      calculateThreatLevel (weaponFrames d).length (d.flatMap frameProximity)
        (weaponActions a) := rfl
  rw [hthr]
  simp only [calculateThreatLevel]
  have hzero : ((weaponFrames d).length = 0) ↔ (hasWeaponFrame d = false) := by
    rw [weaponFrames_length]
    unfold weaponFrameCount hasWeaponFrame
    rw [List.countP_eq_zero, List.any_eq_false]
  have hacts : (0 < (weaponActions a).length) ↔ (hasWeaponAction a = true) := by
    unfold hasWeaponAction
    rcases hl : weaponActions a with _ | ⟨x, xs⟩
    · simp
    · simp only [List.length_cons, List.isEmpty_cons, Bool.not_false]
      exact ⟨fun _ => trivial, fun _ => Nat.succ_pos _⟩
  have hcrit : (0 < ((d.flatMap frameProximity).filter
        (fun p => decide (p.distSq < 300 ^ 2))).length ∨
        0 < (weaponActions a).length) ↔
      ((hasPairWithin d (300 ^ 2) || hasWeaponAction a) = true) := by
    rw [Bool.or_eq_true]
    exact or_congr (proximity_count_pos_iff d (300 ^ 2)) hacts
  have hhigh : (0 < ((d.flatMap frameProximity).filter
        (fun p => decide (p.distSq < 500 ^ 2))).length ∨
        2 < (weaponFrames d).length) ↔
      ((hasPairWithin d (500 ^ 2) || decide (2 < weaponFrameCount d)) = true) := by
    rw [Bool.or_eq_true, decide_eq_true_eq, weaponFrames_length]
    exact or_congr (proximity_count_pos_iff d (500 ^ 2)) Iff.rfl
  exact if_congr hzero rfl (if_congr hcrit rfl (if_congr hhigh rfl rfl))


/-- C4 counterexample: two decodable frames — fewer than 8 — make the motion
analyzer return a fully analyzed result, not the "not analyzed" object the
claim requires for every input below 8 frames. -/
theorem c4_counterexample :
    ([some [[0]], some [[255]]] : List (Option Image)).length < 8 ∧
    (analyzeMotionPatterns [some [[0]], some [[255]]]).isAnalyzed = true := by
  with_unfolding_all decide

/-- C4 (amended): with fewer than 8 frames, run_action_recognition returns its
insufficient-frames result (the empty clip list) without consulting the model;
analyze_motion_patterns, however, returns a not-analyzed result exactly when
there are fewer than 2 frames or no frame pair yields a motion score — with
two or more decodable frames it analyzes normally even below 8 frames. -/
theorem c4_insufficient_frames :
    (∀ (α : Type) (processClips : List String → List α) (frames : List String),
      frames.length < 8 → runActionRecognition processClips frames = []) ∧
    (∀ frames : List (Option Image),
      (analyzeMotionPatterns frames).isAnalyzed = false ↔
        frames.length < 2 ∨ (motionLoop (frames.take 50) none 0).1 = []) := by
  constructor
  · intro α processClips frames hlen
    simp only [runActionRecognition]
    by_cases he : frames.isEmpty
    · rw [if_pos he]
    · rw [if_neg he]
      have hsort : (List.insertionSort (fun a b : String => a ≤ b) frames).length =
          frames.length :=
        (List.perm_insertionSort (fun a b : String => a ≤ b) frames).length_eq
      rw [if_pos (by rw [hsort]; exact hlen)]
  · intro frames
    simp only [analyzeMotionPatterns]
    by_cases h2 : frames.length < 2
    · rw [if_pos h2]
      simp [MotionResult.isAnalyzed, h2]
    · rw [if_neg h2]
      by_cases hm : (motionLoop (frames.take 50) none 0).1.isEmpty
      · rw [if_pos hm]
        rw [List.isEmpty_iff] at hm
        simp [MotionResult.isAnalyzed, hm]
      · rw [if_neg hm]
        have hne : (motionLoop (frames.take 50) none 0).1 ≠ [] := by
          intro h
          rw [h] at hm
          exact hm rfl
        simp only [MotionResult.isAnalyzed]
        constructor
        · intro h
          exact absurd h (by simp)
        · rintro (h | h)
          · exact absurd h h2
          · exact absurd h hne

/-- Witness for the C4 theorem: three frames give an empty clip list, and an
empty frame list is not analyzed. -/
theorem c4_insufficient_frames_witness :
    runActionRecognition (fun l => l) ["a", "b", "c"] = [] ∧
    (analyzeMotionPatterns ([] : List (Option Image))).isAnalyzed = false :=
  ⟨c4_insufficient_frames.1 String (fun l => l) ["a", "b", "c"] (by norm_num),
   (c4_insufficient_frames.2 []).mpr (Or.inl (by norm_num))⟩

/-- Joint invariant of the chase-detection scan: outside a run it produces the
spec's sequences of the remaining scores; inside a run with the high-scoring
scores `acc` already consumed, it closes the current maximal run and
continues. -/
theorem chaseGo_spec (full : List ℚ) :
    ∀ (n : ℕ) (rest : List ℚ), rest.length ≤ n →
      ((∀ (idx s0 : ℕ), full.drop idx = rest →
          chaseGo full rest idx false s0 0 = chaseSpecFrom idx rest) ∧
       (∀ (s : ℕ) (acc : List ℚ), acc ≠ [] → (∀ x ∈ acc, (35:ℚ) < x) →
          full.drop s = acc ++ rest →
          chaseGo full rest (s + acc.length) true s acc.length =
            (if 3 ≤ (acc ++ rest.takeWhile (fun x => decide (35 < x))).length then
               [⟨s, (acc ++ rest.takeWhile (fun x => decide (35 < x))).length,
                 listAvg (acc ++ rest.takeWhile (fun x => decide (35 < x)))⟩]
             else []) ++
              chaseSpecFrom
                (s + (acc ++ rest.takeWhile (fun x => decide (35 < x))).length)
                (rest.dropWhile (fun x => decide (35 < x))))) := by
  intro n
  induction n with
  | zero =>
    intro rest hr
    have hnil : rest = [] := List.eq_nil_of_length_eq_zero (Nat.le_zero.mp hr)
    subst hnil
    constructor
    · intro idx s0 _
      rw [chaseGo]
      simp [chaseSpecFrom, highRuns]
    · intro s acc hne hgt hdrop
      rw [List.append_nil] at hdrop
      rw [chaseGo]
      have hslice : (full.drop s).take acc.length = acc := by
        rw [hdrop, List.take_length]
      rw [hslice]
      simp [chaseSpecFrom, highRuns]
  | succ n ih =>
    intro rest hr
    match rest with
    | [] =>
      constructor
      · intro idx s0 _
        rw [chaseGo]
        simp [chaseSpecFrom, highRuns]
      · intro s acc hne hgt hdrop
        rw [List.append_nil] at hdrop
        rw [chaseGo]
        have hslice : (full.drop s).take acc.length = acc := by
          rw [hdrop, List.take_length]
        rw [hslice]
        simp [chaseSpecFrom, highRuns]
    | score :: rest2 =>
      have hr2 : rest2.length ≤ n := by
        simp only [List.length_cons] at hr
        omega
      obtain ⟨ihP, ihQ⟩ := ih rest2 hr2
      constructor
      · intro idx s0 hdrop
        rw [chaseGo]
        by_cases hsc : (35:ℚ) < score
        · rw [if_pos hsc, if_neg Bool.false_ne_true]
          have hdrop2 : full.drop idx = [score] ++ rest2 := by
            rw [hdrop]
            rfl
          have hq := ihQ idx [score] (by simp)
            (by
              intro x hx
              rw [List.mem_singleton] at hx
              subst hx
              exact hsc)
            hdrop2
          simp only [List.length_singleton] at hq
          rw [hq]
          simp only [chaseSpecFrom, highRuns, if_pos hsc]
          simp only [List.singleton_append, List.length_cons, List.filter_cons]
          by_cases hrun : 3 ≤ (score :: rest2.takeWhile (fun x => decide (35 < x))).length
          · rw [if_pos (by simpa using hrun)]
            rw [if_pos (by simpa using hrun)]
            simp [List.length_cons]
          · rw [if_neg (by simpa using hrun)]
            rw [if_neg (by simpa using hrun)]
            simp [List.length_cons]
        · rw [if_neg hsc]
          rw [if_neg (by simp)]
          rw [List.nil_append]
          have hdrop2 : full.drop (idx + 1) = rest2 := by
            have h1 : full.drop (idx + 1) = (full.drop idx).drop 1 := by
              rw [List.drop_drop]
            rw [h1, hdrop]
            rfl
          rw [ihP (idx + 1) s0 hdrop2]
          simp only [chaseSpecFrom, highRuns, if_neg hsc]
      · intro s acc hne hgt hdrop
        rw [chaseGo]
        by_cases hsc : (35:ℚ) < score
        · rw [if_pos hsc, if_pos rfl]
          have hdrop2 : full.drop s = (acc ++ [score]) ++ rest2 := by
            rw [hdrop, List.append_assoc]
            rfl
          have hq := ihQ s (acc ++ [score]) (by simp)
            (by
              intro x hx
              rcases List.mem_append.mp hx with h | h
              · exact hgt x h
              · rw [List.mem_singleton] at h
                subst h
                exact hsc)
            hdrop2
          simp only [List.length_append, List.length_singleton] at hq
          rw [List.append_assoc] at hq
          rw [List.takeWhile_cons_of_pos (by simpa using hsc),
            List.dropWhile_cons_of_pos (by simpa using hsc)]
          have hlen2 : (acc ++ score :: List.takeWhile (fun x => decide (35 < x)) rest2).length =
              acc.length + 1 + (List.takeWhile (fun x => decide (35 < x)) rest2).length := by
            simp only [List.length_append, List.length_cons]
            omega
          rw [hlen2]
          exact hq
        · rw [if_neg hsc]
          have hslice : (full.drop s).take acc.length = acc := by
            rw [hdrop]
            exact List.take_left acc (score :: rest2)
          have hdropmid : full.drop (s + acc.length) = score :: rest2 := by
            have h1 : full.drop (s + acc.length) = (full.drop s).drop acc.length := by
              rw [List.drop_drop, Nat.add_comm]
            rw [h1, hdrop]
            exact List.drop_left acc (score :: rest2)
          have hdrop2 : full.drop (s + acc.length + 1) = rest2 := by
            have h1 : full.drop (s + acc.length + 1) = (full.drop (s + acc.length)).drop 1 := by
              rw [List.drop_drop]
            rw [h1, hdropmid]
            rfl
          rw [ihP (s + acc.length + 1) s hdrop2]
          rw [List.takeWhile_cons_of_neg (by simpa using hsc),
            List.dropWhile_cons_of_neg (by simpa using hsc)]
          rw [List.append_nil, hslice]
          have hspec : chaseSpecFrom (s + acc.length) (score :: rest2) =
              chaseSpecFrom (s + acc.length + 1) rest2 := by
            simp only [chaseSpecFrom, highRuns, if_neg hsc]
          rw [hspec]
          have hcond : ((true = true) ∧ 3 ≤ acc.length) ↔ (3 ≤ acc.length) := by simp
          rw [if_congr hcond rfl rfl]

/-- Elements of the high-scoring prefix are above 35. -/
theorem mem_takeWhile_gt {l : List ℚ} {x : ℚ}
    (hx : x ∈ l.takeWhile (fun s => decide ((35:ℚ) < s))) : (35:ℚ) < x := by
  induction l with
  | nil => exact absurd hx (List.not_mem_nil x)
  | cons a as ih =>
    by_cases hp : (35:ℚ) < a
    · rw [List.takeWhile_cons_of_pos (by simpa using hp)] at hx
      rcases List.mem_cons.mp hx with rfl | h
      · exact hp
      · exact ih h
    · rw [List.takeWhile_cons_of_neg (by simpa using hp)] at hx
      exact absurd hx (List.not_mem_nil x)

/-- Every maximal high run is nonempty and consists of scores above 35. -/
theorem highRuns_all_high :
    ∀ (n : ℕ) (l : List ℚ), l.length ≤ n → ∀ i : ℕ,
      ((highRuns i l).all
        (fun r => !r.2.isEmpty && r.2.all (fun x => decide (35 < x)))) = true := by
  intro n
  induction n with
  | zero =>
    intro l hl i
    have hnil : l = [] := List.eq_nil_of_length_eq_zero (Nat.le_zero.mp hl)
    subst hnil
    simp [highRuns]
  | succ n ih =>
    intro l hl i
    match l with
    | [] => simp [highRuns]
    | score :: rest =>
      simp only [highRuns]
      by_cases hsc : (35:ℚ) < score
      · rw [if_pos hsc, List.all_cons, Bool.and_eq_true]
        constructor
        · simp only [List.isEmpty_cons, Bool.not_false, Bool.true_and, List.all_cons,
            Bool.and_eq_true, decide_eq_true_eq]
          refine ⟨hsc, ?_⟩
          rw [List.all_eq_true]
          intro x hx
          simpa using mem_takeWhile_gt hx
        · refine ih _ ?_ _
          have h1 : (rest.dropWhile (fun s => decide ((35:ℚ) < s))).length ≤ rest.length :=
            (List.dropWhile_suffix _).sublist.length_le
          simp only [List.length_cons] at hl
          omega
      · rw [if_neg hsc]
        refine ih rest ?_ (i + 1)
        simp only [List.length_cons] at hl
        omega

/-- C8: the chase detector emits exactly one chase sequence per maximal run of
at least 3 consecutive scores each strictly above 35 — it equals the spec-side
map over the maximal high runs (including a run ending at the list's end),
each recorded with its start index, duration and mean intensity; every
maximal high run is nonempty with all scores above 35, and every emitted
sequence lasts at least 3 frame-pairs. -/
theorem c8_chase_sequences (scores : List ℚ) :
    detectChaseSequences scores = chaseSpecFrom 0 scores ∧
    (highRuns 0 scores).all
      (fun r => !r.2.isEmpty && r.2.all (fun x => decide (35 < x))) = true ∧
    ∀ cs ∈ detectChaseSequences scores, 3 ≤ cs.duration_frames := by
  have hmain := (chaseGo_spec scores scores.length scores (le_refl _)).1 0 0
    (List.drop_zero scores)
  refine ⟨hmain, highRuns_all_high scores.length scores (le_refl _) 0, ?_⟩
  intro cs hcs
  rw [show detectChaseSequences scores = chaseSpecFrom 0 scores from hmain] at hcs
  simp only [chaseSpecFrom, List.mem_map, List.mem_filter] at hcs
  obtain ⟨r, ⟨-, hr3⟩, rfl⟩ := hcs
  exact of_decide_eq_true hr3

/-- Witness for the C8 theorem on a concrete score list with one interior run
and one run reaching the end of the list. -/
theorem c8_chase_sequences_witness :
    detectChaseSequences [(40:ℚ), 40, 40, 10, 36, 36, 36, 36] =
      chaseSpecFrom 0 [(40:ℚ), 40, 40, 10, 36, 36, 36, 36] ∧
    3 ≤ (⟨4, 4, 36⟩ : ChaseSeq).duration_frames :=
  ⟨(c8_chase_sequences [(40:ℚ), 40, 40, 10, 36, 36, 36, 36]).1,
   (c8_chase_sequences [(40:ℚ), 40, 40, 10, 36, 36, 36, 36]).2.2 ⟨4, 4, 36⟩
     (by with_unfolding_all decide)⟩

end CrimeAI
